import Mathlib

/-!
Verification of the feature-encoding and prediction pipeline of the
Ford car price predictor (src/app.py, lines 224-255).

The pipeline builds a Python dict mapping every schema column to 0,
assigns the five numeric inputs into their named slots (plain dict
assignment, which inserts the key when it is absent), one-hot activates
at most one slot per categorical family when the candidate column name
exists in the schema, applies the numeric scaler to the five numeric
columns, and calls the regression model on the resulting single-row
frame; the whole block runs inside a catch-all exception handler that
surfaces any failure as a displayed error message.

The embedding below models the dict as an association list with Python
dict semantics (update the existing entry, else append), numeric values
as rationals, and the external scaler and model artifacts as abstract
fallible functions.
-/

/-- A feature vector: association list from column name to numeric value,
with Python dict semantics for lookup and assignment. -/
abbrev FeatureVec := List (String × ℚ)

/-- Python dict lookup: value of the first entry with the given key. -/
def dictGet : FeatureVec → String → Option ℚ
  | [], _ => none
  | p :: d, k => if p.1 = k then some p.2 else dictGet d k

/-- Python dict assignment `d[k] = v`: overwrite the entry when the key is
present, otherwise append a new entry at the end. -/
def dictSet : FeatureVec → String → ℚ → FeatureVec
  | [], k, v => [(k, v)]
  | p :: d, k, v => if p.1 = k then (k, v) :: d else p :: dictSet d k v

/-- Raw user inputs collected by the form (src/app.py sidebar widgets):
five numeric fields and three categorical selections. -/
structure RawInputs where
  year : ℚ
  mileage : ℚ
  tax : ℚ
  mpg : ℚ
  engineSize : ℚ
  model : String
  transmission : String
  fuelType : String

/-- The result of a prediction: a single scalar price. -/
structure PredictionResult where
  price : ℚ
deriving DecidableEq

/-- Line 226 of src/app.py: `raw_input = \x7bcol: 0 for col in columns\x7d` —
every schema column initialized to 0. -/
def initVec (columns : List String) : FeatureVec :=
  columns.map (fun c => (c, (0 : ℚ)))

/-- Lines 226-247 of src/app.py: initialize the vector from the schema,
assign the five numeric fields into their named slots, then one-hot
activate the matching categorical columns. Mirrors the source statement
by statement; each `dictSet` is one Python dict assignment. -/
def encode (columns : List String) (r : RawInputs) : FeatureVec :=
  let d0 := initVec columns
  let d1 := dictSet d0 "year" r.year
  let d2 := dictSet d1 "mileage" r.mileage
  let d3 := dictSet d2 "tax" r.tax
  let d4 := dictSet d3 "mpg" r.mpg
  let d5 := dictSet d4 "engineSize" r.engineSize
  let d6 :=
    if r.model = "Focus" ∧ "model_Focus" ∈ columns then
      dictSet d5 "model_Focus" 1
    else if ("model_ " ++ r.model) ∈ columns then
      dictSet d5 ("model_ " ++ r.model) 1
    else d5
  let d7 :=
    if ("transmission_" ++ r.transmission) ∈ columns then
      dictSet d6 ("transmission_" ++ r.transmission) 1
    else d6
  if ("fuelType_" ++ r.fuelType) ∈ columns then
    dictSet d7 ("fuelType_" ++ r.fuelType) 1
  else d7

/-- The model-family slot the encoder activates, if any: the exact branch
structure of lines 236-239 of src/app.py ("Focus" exact match first,
then the general leading-space convention). -/
def modelSlotOf (columns : List String) (m : String) : Option String :=
  if m = "Focus" ∧ "model_Focus" ∈ columns then some "model_Focus"
  else if ("model_ " ++ m) ∈ columns then some ("model_ " ++ m)
  else none

/-- Line 251 of src/app.py: `num_cols = [...]`, the fixed order in which
the numeric columns are passed to the scaler. -/
def num_cols : List String := ["year", "mileage", "tax", "mpg", "engineSize"]

/-- The five numeric values read out of the feature vector in the fixed
`num_cols` order — the argument `input_df[num_cols]` of line 252. -/
def preNumeric (d : FeatureVec) : Fin 5 → ℚ :=
  fun i => (dictGet d (num_cols.getD i.val "")).getD 0

/-- Line 252 of src/app.py, write-back half: assign the scaler output back
into the five numeric columns, in the fixed `num_cols` order. -/
def writeNumeric (d : FeatureVec) (post : Fin 5 → ℚ) : FeatureVec :=
  dictSet (dictSet (dictSet (dictSet (dictSet d "year" (post 0))
    "mileage" (post 1)) "tax" (post 2)) "mpg" (post 3)) "engineSize" (post 4)

/-- The request-scoped failure surfaced by the catch-all handler of lines
347-348 of src/app.py, carrying the underlying cause. -/
inductive AppError where
  | InferenceError (cause : String)
deriving DecidableEq

/-- Lines 224-255 of src/app.py: the encode-scale-predict pipeline inside
the try block. The external scaler and model are abstract fallible
functions; any failure they raise, and the out-of-bounds access
`model.predict(input_df)[0]` on an empty output, is caught by the
handler of lines 347-348 and wrapped as the displayed error. -/
def predictPipeline (columns : List String)
    (transform : (Fin 5 → ℚ) → Except String (Fin 5 → ℚ))
    (model : FeatureVec → Except String (List ℚ))
    (r : RawInputs) : Except AppError PredictionResult :=
  let d := encode columns r
  match transform (preNumeric d) with
  | .error e => .error (.InferenceError e)
  | .ok post =>
    match model (writeNumeric d post) with
    | .error e => .error (.InferenceError e)
    | .ok [] => .error (.InferenceError "index 0 is out of bounds")
    | .ok (p :: _) => .ok ⟨p⟩

/-- The three artifacts loaded once at startup (lines 56-69 of src/app.py)
and shared, read-only, by every prediction request. -/
structure Artifacts where
  columns : List String
  transform : (Fin 5 → ℚ) → Except String (Fin 5 → ℚ)
  model : FeatureVec → Except String (List ℚ)

/-- One button-press request (lines 217-348 of src/app.py) as a state
transition on the loaded artifacts: the handler only reads the cached
`model`, `scaler` and `columns` globals and never reassigns them, so the
artifact state passes through unchanged. -/
def handleRequest (a : Artifacts) (r : RawInputs) :
    Except AppError PredictionResult × Artifacts :=
  (predictPipeline a.columns a.transform a.model r, a)

/-- `strStarts p s` : the column name `s` starts with the family marker
`p` (e.g. the model_* family). -/
def strStarts (p s : String) : Bool :=
  p.data.isPrefixOf s.data

/-! ## Dictionary lemmas -/

theorem dictGet_dictSet_self (d : FeatureVec) (k : String) (v : ℚ) :
    dictGet (dictSet d k v) k = some v := by
  induction d with
  | nil => simp [dictSet, dictGet]
  | cons p d ih =>
    by_cases h : p.1 = k
    · simp [dictSet, h, dictGet]
    · simp [dictSet, h, dictGet, ih]

theorem dictGet_dictSet_of_ne (d : FeatureVec) (k : String) (v : ℚ)
    (n : String) (h : n ≠ k) : dictGet (dictSet d k v) n = dictGet d n := by
  have hk : ¬ (k = n) := fun hkn => h hkn.symm
  induction d with
  | nil => simp [dictSet, dictGet, hk]
  | cons p d ih =>
    by_cases hp : p.1 = k
    · simp [dictSet, hp, dictGet, hk]
    · simp [dictSet, hp, dictGet, ih]

theorem dictGet_dictSet (d : FeatureVec) (k : String) (v : ℚ) (n : String) :
    dictGet (dictSet d k v) n = if n = k then some v else dictGet d n := by
  by_cases h : n = k
  · subst h; simp [dictGet_dictSet_self]
  · simp [h, dictGet_dictSet_of_ne d k v n h]

theorem dictGet_initVec (columns : List String) (n : String) :
    dictGet (initVec columns) n = if n ∈ columns then some 0 else none := by
  induction columns with
  | nil => simp [initVec, dictGet]
  | cons c cs ih =>
    simp only [initVec, List.map_cons, dictGet]
    rw [show dictGet (cs.map fun c => (c, (0 : ℚ))) n = dictGet (initVec cs) n from rfl, ih]
    by_cases h : c = n
    · simp [h]
    · rw [if_neg h]
      have hnc : ¬ n = c := fun hn => h hn.symm
      by_cases hm : n ∈ cs
      · simp [hm]
      · simp [hm, hnc, List.mem_cons]

theorem dictGet_condSet (c : Prop) [Decidable c] (d : FeatureVec)
    (k : String) (v : ℚ) (n : String) :
    dictGet (if c then dictSet d k v else d) n =
      if c ∧ n = k then some v else dictGet d n := by
  by_cases hc : c
  · simp [hc, dictGet_dictSet]
  · simp [hc]

/-- Value of every slot after the five numeric assignments of lines
229-233 of src/app.py (applied to the zero-initialized vector). -/
theorem dictGet_numericStep (columns : List String) (r : RawInputs) (n : String) :
    dictGet (dictSet (dictSet (dictSet (dictSet (dictSet (initVec columns)
        "year" r.year) "mileage" r.mileage) "tax" r.tax) "mpg" r.mpg)
        "engineSize" r.engineSize) n =
      if n = "engineSize" then some r.engineSize
      else if n = "mpg" then some r.mpg
      else if n = "tax" then some r.tax
      else if n = "mileage" then some r.mileage
      else if n = "year" then some r.year
      else if n ∈ columns then some 0
      else none := by
  rw [dictGet_dictSet, dictGet_dictSet, dictGet_dictSet, dictGet_dictSet,
    dictGet_dictSet, dictGet_initVec]

/-- Value of every slot after the model one-hot branch of lines 236-239
of src/app.py, in terms of `modelSlotOf`. -/
theorem dictGet_modelStep (columns : List String) (m : String)
    (d : FeatureVec) (n : String) :
    dictGet (if m = "Focus" ∧ "model_Focus" ∈ columns then dictSet d "model_Focus" 1
      else if ("model_ " ++ m) ∈ columns then dictSet d ("model_ " ++ m) 1
      else d) n =
      if modelSlotOf columns m = some n then some 1 else dictGet d n := by
  by_cases h1 : m = "Focus" ∧ "model_Focus" ∈ columns
  · rw [if_pos h1, dictGet_dictSet]
    simp only [modelSlotOf, if_pos h1, Option.some.injEq]
    by_cases hn : n = "model_Focus"
    · simp [hn]
    · have h' : ¬ ("model_Focus" = n) := fun h => hn h.symm
      simp [hn, h']
  · rw [if_neg h1]
    simp only [modelSlotOf, if_neg h1]
    by_cases h2 : ("model_ " ++ m) ∈ columns
    · rw [if_pos h2, if_pos h2, dictGet_dictSet]
      simp only [Option.some.injEq]
      by_cases hn : n = "model_ " ++ m
      · simp [hn]
      · have h' : ¬ ("model_ " ++ m = n) := fun h => hn h.symm
        simp [hn, h']
    · simp [h2]

/-- Master characterization of the encoder: the value of every slot of the
encoded feature vector, read off the chain of dict assignments of lines
226-247 of src/app.py (the conditions appear in reverse assignment
order; all assigned keys are in fact pairwise distinct). -/
theorem dictGet_encode (columns : List String) (r : RawInputs) (n : String) :
    dictGet (encode columns r) n =
      if ("fuelType_" ++ r.fuelType) ∈ columns ∧ n = "fuelType_" ++ r.fuelType then some 1
      else if ("transmission_" ++ r.transmission) ∈ columns ∧ n = "transmission_" ++ r.transmission then some 1
      else if modelSlotOf columns r.model = some n then some 1
      else if n = "engineSize" then some r.engineSize
      else if n = "mpg" then some r.mpg
      else if n = "tax" then some r.tax
      else if n = "mileage" then some r.mileage
      else if n = "year" then some r.year
      else if n ∈ columns then some 0
      else none := by
  simp only [encode]
  rw [dictGet_condSet, dictGet_condSet, dictGet_modelStep, dictGet_numericStep]

/-! ## String lemmas for the column naming conventions -/

theorem str_ext (s t : String) (h : s.data = t.data) : s = t := by
  cases s; cases t; exact congrArg String.mk h

theorem strStarts_self_append (p s : String) : strStarts p (p ++ s) = true := by
  simp only [strStarts]
  rw [show (p ++ s).data = p.data ++ s.data from rfl]
  exact List.isPrefixOf_iff_prefix.mpr (List.prefix_append _ _)

theorem strStarts_false (p q s : String)
    (h1 : ¬ p.data <+: q.data) (h2 : ¬ q.data <+: p.data) :
    strStarts p (q ++ s) = false := by
  simp only [strStarts]
  rw [show (q ++ s).data = q.data ++ s.data from rfl, Bool.eq_false_iff]
  intro hx
  have hp : p.data <+: q.data ++ s.data := List.isPrefixOf_iff_prefix.mp hx
  have hq : q.data <+: q.data ++ s.data := List.prefix_append _ _
  rcases List.prefix_or_prefix_of_prefix hp hq with h | h
  · exact h1 h
  · exact h2 h

theorem str_ne_append (x q t : String) (h2 : ¬ q.data <+: x.data) :
    x ≠ q ++ t := by
  intro h
  apply h2
  rw [h, show (q ++ t).data = q.data ++ t.data from rfl]
  exact List.prefix_append _ _

theorem append_ne_append (p q s t : String)
    (h1 : ¬ p.data <+: q.data) (h2 : ¬ q.data <+: p.data) :
    p ++ s ≠ q ++ t := by
  intro h
  have hf : strStarts p (q ++ t) = false := strStarts_false p q t h1 h2
  rw [← h] at hf
  simp [strStarts_self_append] at hf

/-! ## Helper lemmas about the encoder -/

theorem modelSlotOf_cases (columns : List String) (m s : String)
    (h : modelSlotOf columns m = some s) :
    s = "model_Focus" ∨ s = "model_ " ++ m := by
  unfold modelSlotOf at h
  split at h
  · exact Or.inl (Option.some_inj.mp h).symm
  · split at h
    · exact Or.inr (Option.some_inj.mp h).symm
    · cases h

theorem modelSlotOf_ne (columns : List String) (m x : String)
    (hF : x ≠ "model_Focus") (hsp : ¬ ("model_ ".data <+: x.data)) :
    modelSlotOf columns m ≠ some x := by
  intro h
  rcases modelSlotOf_cases columns m x h with h' | h'
  · exact hF h'
  · exact str_ne_append x "model_ " m hsp h'

theorem strStarts_num_false (fam n : String)
    (hfam : fam = "model_" ∨ fam = "transmission_" ∨ fam = "fuelType_")
    (h : n ∈ num_cols) : strStarts fam n = false := by
  simp only [num_cols, List.mem_cons, List.not_mem_nil, or_false] at h
  rcases hfam with rfl | rfl | rfl <;>
    rcases h with rfl | rfl | rfl | rfl | rfl <;> decide

/-- The five numeric slots always hold the raw input values after
encoding, whether or not their names are in the schema. -/
theorem encode_numeric_slots (columns : List String) (r : RawInputs) :
    dictGet (encode columns r) "year" = some r.year ∧
    dictGet (encode columns r) "mileage" = some r.mileage ∧
    dictGet (encode columns r) "tax" = some r.tax ∧
    dictGet (encode columns r) "mpg" = some r.mpg ∧
    dictGet (encode columns r) "engineSize" = some r.engineSize := by
  refine ⟨?_, ?_, ?_, ?_, ?_⟩ <;>
  · rw [dictGet_encode]
    rw [if_neg (fun h => str_ne_append _ "fuelType_" r.fuelType (by decide) h.2)]
    rw [if_neg (fun h => str_ne_append _ "transmission_" r.transmission (by decide) h.2)]
    rw [if_neg (modelSlotOf_ne columns r.model _ (by decide) (by decide))]
    simp

theorem encode_fuel_one (columns : List String) (r : RawInputs)
    (h : ("fuelType_" ++ r.fuelType) ∈ columns) :
    dictGet (encode columns r) ("fuelType_" ++ r.fuelType) = some 1 := by
  rw [dictGet_encode, if_pos ⟨h, rfl⟩]

theorem encode_trans_one (columns : List String) (r : RawInputs)
    (h : ("transmission_" ++ r.transmission) ∈ columns) :
    dictGet (encode columns r) ("transmission_" ++ r.transmission) = some 1 := by
  rw [dictGet_encode,
    if_neg (fun hc => append_ne_append "transmission_" "fuelType_" r.transmission r.fuelType
      (by decide) (by decide) hc.2),
    if_pos ⟨h, rfl⟩]

theorem encode_model_one (columns : List String) (r : RawInputs) (s : String)
    (h : modelSlotOf columns r.model = some s) :
    dictGet (encode columns r) s = some 1 := by
  have hcase := modelSlotOf_cases columns r.model s h
  rw [dictGet_encode]
  rw [if_neg (fun hc => by
    rcases hcase with h' | h'
    · exact str_ne_append "model_Focus" "fuelType_" r.fuelType (by decide) (h' ▸ hc.2)
    · exact append_ne_append "model_ " "fuelType_" r.model r.fuelType (by decide) (by decide)
        (h' ▸ hc.2))]
  rw [if_neg (fun hc => by
    rcases hcase with h' | h'
    · exact str_ne_append "model_Focus" "transmission_" r.transmission (by decide) (h' ▸ hc.2)
    · exact append_ne_append "model_ " "transmission_" r.model r.transmission (by decide)
        (by decide) (h' ▸ hc.2))]
  rw [if_pos h]

/-- A schema column that is not numeric and is not the activated slot of
any categorical family still holds 0 after encoding. -/
theorem encode_zero (columns : List String) (r : RawInputs) (n : String)
    (hn : n ∈ columns)
    (hf : ¬ (("fuelType_" ++ r.fuelType) ∈ columns ∧ n = "fuelType_" ++ r.fuelType))
    (ht : ¬ (("transmission_" ++ r.transmission) ∈ columns ∧ n = "transmission_" ++ r.transmission))
    (hm : modelSlotOf columns r.model ≠ some n)
    (h5 : n ∉ num_cols) :
    dictGet (encode columns r) n = some 0 := by
  rw [dictGet_encode, if_neg hf, if_neg ht, if_neg hm,
    if_neg (fun h => h5 (by rw [h]; decide)),
    if_neg (fun h => h5 (by rw [h]; decide)),
    if_neg (fun h => h5 (by rw [h]; decide)),
    if_neg (fun h => h5 (by rw [h]; decide)),
    if_neg (fun h => h5 (by rw [h]; decide)),
    if_pos hn]

/-- A slot holding 1 after encoding is an activated categorical candidate
or one of the numeric columns (whose raw value happens to be 1). -/
theorem encode_one_cases (columns : List String) (r : RawInputs) (n : String)
    (h : dictGet (encode columns r) n = some 1) :
    n = "fuelType_" ++ r.fuelType ∨ n = "transmission_" ++ r.transmission ∨
    modelSlotOf columns r.model = some n ∨ n ∈ num_cols := by
  rw [dictGet_encode] at h
  split at h
  next hc => exact Or.inl hc.2
  next =>
    split at h
    next hc => exact Or.inr (Or.inl hc.2)
    next =>
      split at h
      next hc => exact Or.inr (Or.inr (Or.inl hc))
      next =>
        split at h
        next hc => exact Or.inr (Or.inr (Or.inr (by rw [hc]; decide)))
        next =>
          split at h
          next hc => exact Or.inr (Or.inr (Or.inr (by rw [hc]; decide)))
          next =>
            split at h
            next hc => exact Or.inr (Or.inr (Or.inr (by rw [hc]; decide)))
            next =>
              split at h
              next hc => exact Or.inr (Or.inr (Or.inr (by rw [hc]; decide)))
              next =>
                split at h
                next hc => exact Or.inr (Or.inr (Or.inr (by rw [hc]; decide)))
                next =>
                  split at h
                  next => exact absurd (Option.some_inj.mp h) (by norm_num)
                  next => cases h

/-- A slot outside the five numeric columns holds 0 or 1 after encoding. -/
theorem encode_nonnum_01 (columns : List String) (r : RawInputs)
    (n : String) (v : ℚ) (h5 : n ∉ num_cols)
    (h : dictGet (encode columns r) n = some v) : v = 0 ∨ v = 1 := by
  rw [dictGet_encode] at h
  split at h
  next => exact Or.inr (Option.some_inj.mp h).symm
  next =>
    split at h
    next => exact Or.inr (Option.some_inj.mp h).symm
    next =>
      split at h
      next => exact Or.inr (Option.some_inj.mp h).symm
      next =>
        split at h
        next hc => exact absurd (by rw [hc]; decide) h5
        next =>
          split at h
          next hc => exact absurd (by rw [hc]; decide) h5
          next =>
            split at h
            next hc => exact absurd (by rw [hc]; decide) h5
            next =>
              split at h
              next hc => exact absurd (by rw [hc]; decide) h5
              next =>
                split at h
                next hc => exact absurd (by rw [hc]; decide) h5
                next =>
                  split at h
                  next => exact Or.inl (Option.some_inj.mp h).symm
                  next => cases h

/-- After the scaler write-back, each numeric slot holds the corresponding
component of the scaler output, in the fixed `num_cols` order. -/
theorem writeNumeric_slots (d : FeatureVec) (post : Fin 5 → ℚ) :
    dictGet (writeNumeric d post) "year" = some (post 0) ∧
    dictGet (writeNumeric d post) "mileage" = some (post 1) ∧
    dictGet (writeNumeric d post) "tax" = some (post 2) ∧
    dictGet (writeNumeric d post) "mpg" = some (post 3) ∧
    dictGet (writeNumeric d post) "engineSize" = some (post 4) := by
  unfold writeNumeric
  refine ⟨?_, ?_, ?_, ?_, ?_⟩
  · rw [dictGet_dictSet_of_ne _ _ _ _ (by decide), dictGet_dictSet_of_ne _ _ _ _ (by decide),
      dictGet_dictSet_of_ne _ _ _ _ (by decide), dictGet_dictSet_of_ne _ _ _ _ (by decide),
      dictGet_dictSet_self]
  · rw [dictGet_dictSet_of_ne _ _ _ _ (by decide), dictGet_dictSet_of_ne _ _ _ _ (by decide),
      dictGet_dictSet_of_ne _ _ _ _ (by decide), dictGet_dictSet_self]
  · rw [dictGet_dictSet_of_ne _ _ _ _ (by decide), dictGet_dictSet_of_ne _ _ _ _ (by decide),
      dictGet_dictSet_self]
  · rw [dictGet_dictSet_of_ne _ _ _ _ (by decide), dictGet_dictSet_self]
  · rw [dictGet_dictSet_self]

/-- The scaler write-back leaves every slot outside the five numeric
columns untouched. -/
theorem writeNumeric_other (d : FeatureVec) (post : Fin 5 → ℚ) (n : String)
    (h : n ∉ num_cols) : dictGet (writeNumeric d post) n = dictGet d n := by
  have h1 : n ≠ "year" := fun he => h (by rw [he]; decide)
  have h2 : n ≠ "mileage" := fun he => h (by rw [he]; decide)
  have h3 : n ≠ "tax" := fun he => h (by rw [he]; decide)
  have h4 : n ≠ "mpg" := fun he => h (by rw [he]; decide)
  have h5 : n ≠ "engineSize" := fun he => h (by rw [he]; decide)
  unfold writeNumeric
  rw [dictGet_dictSet_of_ne _ _ _ _ h5, dictGet_dictSet_of_ne _ _ _ _ h4,
    dictGet_dictSet_of_ne _ _ _ _ h3, dictGet_dictSet_of_ne _ _ _ _ h2,
    dictGet_dictSet_of_ne _ _ _ _ h1]

/-- The five pre-scale values handed to the scaler are exactly the raw
numeric inputs, in the fixed `num_cols` order. -/
theorem preNumeric_encode (columns : List String) (r : RawInputs) :
    preNumeric (encode columns r) 0 = r.year ∧
    preNumeric (encode columns r) 1 = r.mileage ∧
    preNumeric (encode columns r) 2 = r.tax ∧
    preNumeric (encode columns r) 3 = r.mpg ∧
    preNumeric (encode columns r) 4 = r.engineSize := by
  obtain ⟨e1, e2, e3, e4, e5⟩ := encode_numeric_slots columns r
  refine ⟨?_, ?_, ?_, ?_, ?_⟩
  · simp only [preNumeric]
    rw [show num_cols.getD ((0 : Fin 5)).val "" = "year" from rfl, e1]; rfl
  · simp only [preNumeric]
    rw [show num_cols.getD ((1 : Fin 5)).val "" = "mileage" from rfl, e2]; rfl
  · simp only [preNumeric]
    rw [show num_cols.getD ((2 : Fin 5)).val "" = "tax" from rfl, e3]; rfl
  · simp only [preNumeric]
    rw [show num_cols.getD ((3 : Fin 5)).val "" = "mpg" from rfl, e4]; rfl
  · simp only [preNumeric]
    rw [show num_cols.getD ((4 : Fin 5)).val "" = "engineSize" from rfl, e5]; rfl

/-! ## Claim C2 -/

/-- Claim C2: the candidate one-hot feature name is "<field>_<value>" for
transmission and fuelType, and "model_ <value>" with a leading space for
model, except that the literal model value "Focus" maps to "model_Focus"
with no space; in particular, given model = "Focus" and a schema
containing "model_Focus", the feature vector has model_Focus = 1 and
every other model_* slot equal to 0. -/
theorem c2_categorical_naming (columns : List String) (r : RawInputs) :
    (("transmission_" ++ r.transmission) ∈ columns →
      dictGet (encode columns r) ("transmission_" ++ r.transmission) = some 1) ∧
    (("fuelType_" ++ r.fuelType) ∈ columns →
      dictGet (encode columns r) ("fuelType_" ++ r.fuelType) = some 1) ∧
    (r.model ≠ "Focus" → ("model_ " ++ r.model) ∈ columns →
      dictGet (encode columns r) ("model_ " ++ r.model) = some 1) ∧
    (r.model = "Focus" → "model_Focus" ∈ columns →
      dictGet (encode columns r) "model_Focus" = some 1 ∧
      (∀ n, n ∈ columns → strStarts "model_" n = true → n ≠ "model_Focus" →
        dictGet (encode columns r) n = some 0)) := by
  refine ⟨fun h => encode_trans_one columns r h, fun h => encode_fuel_one columns r h, ?_, ?_⟩
  · intro hne hmem
    apply encode_model_one
    unfold modelSlotOf
    rw [if_neg (fun hc => hne hc.1), if_pos hmem]
  · intro hF hmem
    have hslot : modelSlotOf columns r.model = some "model_Focus" := by
      unfold modelSlotOf; rw [if_pos ⟨hF, hmem⟩]
    refine ⟨encode_model_one columns r _ hslot, ?_⟩
    intro n hn hfam hne
    apply encode_zero columns r n hn
    · intro hc
      rw [hc.2, strStarts_false "model_" "fuelType_" r.fuelType (by decide) (by decide)] at hfam
      exact absurd hfam (by decide)
    · intro hc
      rw [hc.2, strStarts_false "model_" "transmission_" r.transmission (by decide) (by decide)] at hfam
      exact absurd hfam (by decide)
    · rw [hslot]
      intro hc
      exact hne (Option.some_inj.mp hc).symm
    · intro h5
      rw [strStarts_num_false "model_" n (Or.inl rfl) h5] at hfam
      exact absurd hfam (by decide)

/-- Witness for C2 at a concrete schema and input: model = "Focus" with
"model_Focus" in the schema activates model_Focus, zeroes the other
model_* slot, and the transmission slot follows the plain convention. -/
theorem c2_witness :
    dictGet (encode ["model_Focus", "model_ Fiesta", "transmission_Manual"]
      ⟨2018, 30000, 150, 50, 2, "Focus", "Manual", "Petrol"⟩) "model_Focus" = some 1 ∧
    dictGet (encode ["model_Focus", "model_ Fiesta", "transmission_Manual"]
      ⟨2018, 30000, 150, 50, 2, "Focus", "Manual", "Petrol"⟩) "model_ Fiesta" = some 0 ∧
    dictGet (encode ["model_Focus", "model_ Fiesta", "transmission_Manual"]
      ⟨2018, 30000, 150, 50, 2, "Focus", "Manual", "Petrol"⟩) "transmission_Manual" = some 1 := by
  have h := c2_categorical_naming ["model_Focus", "model_ Fiesta", "transmission_Manual"]
    ⟨2018, 30000, 150, 50, 2, "Focus", "Manual", "Petrol"⟩
  exact ⟨(h.2.2.2 rfl (by decide)).1,
    (h.2.2.2 rfl (by decide)).2 "model_ Fiesta" (by decide) (by decide) (by decide),
    h.1 (by decide)⟩

/-! ## Claim C4 -/

/-- Claim C4: a categorical input whose computed candidate feature name is
not in the schema is a silent no-op — the encoder (a total function, so
nothing is raised) leaves every slot of that categorical family at 0.
For the model family the candidate is schema-dependent per lines 236-239
(`modelSlotOf`); for transmission and fuelType it is the plain
"<field>_<value>" name. -/
theorem c4_unmatched_noop (columns : List String) (r : RawInputs) :
    (modelSlotOf columns r.model = none →
      ∀ n, n ∈ columns → strStarts "model_" n = true →
        dictGet (encode columns r) n = some 0) ∧
    (("transmission_" ++ r.transmission) ∉ columns →
      ∀ n, n ∈ columns → strStarts "transmission_" n = true →
        dictGet (encode columns r) n = some 0) ∧
    (("fuelType_" ++ r.fuelType) ∉ columns →
      ∀ n, n ∈ columns → strStarts "fuelType_" n = true →
        dictGet (encode columns r) n = some 0) := by
  refine ⟨?_, ?_, ?_⟩
  · intro hnone n hn hfam
    apply encode_zero columns r n hn
    · intro hc
      rw [hc.2, strStarts_false "model_" "fuelType_" r.fuelType (by decide) (by decide)] at hfam
      exact absurd hfam (by decide)
    · intro hc
      rw [hc.2, strStarts_false "model_" "transmission_" r.transmission (by decide) (by decide)] at hfam
      exact absurd hfam (by decide)
    · rw [hnone]; exact fun hc => Option.noConfusion hc
    · intro h5
      rw [strStarts_num_false "model_" n (Or.inl rfl) h5] at hfam
      exact absurd hfam (by decide)
  · intro habs n hn hfam
    apply encode_zero columns r n hn
    · intro hc
      rw [hc.2, strStarts_false "transmission_" "fuelType_" r.fuelType (by decide) (by decide)] at hfam
      exact absurd hfam (by decide)
    · exact fun hc => habs hc.1
    · intro hc
      rcases modelSlotOf_cases columns r.model n hc with h' | h'
      · rw [h'] at hfam; exact absurd hfam (by decide)
      · rw [h', strStarts_false "transmission_" "model_ " r.model (by decide) (by decide)] at hfam
        exact absurd hfam (by decide)
    · intro h5
      rw [strStarts_num_false "transmission_" n (Or.inr (Or.inl rfl)) h5] at hfam
      exact absurd hfam (by decide)
  · intro habs n hn hfam
    apply encode_zero columns r n hn
    · exact fun hc => habs hc.1
    · intro hc
      rw [hc.2, strStarts_false "fuelType_" "transmission_" r.transmission (by decide) (by decide)] at hfam
      exact absurd hfam (by decide)
    · intro hc
      rcases modelSlotOf_cases columns r.model n hc with h' | h'
      · rw [h'] at hfam; exact absurd hfam (by decide)
      · rw [h', strStarts_false "fuelType_" "model_ " r.model (by decide) (by decide)] at hfam
        exact absurd hfam (by decide)
    · intro h5
      rw [strStarts_num_false "fuelType_" n (Or.inr (Or.inr rfl)) h5] at hfam
      exact absurd hfam (by decide)

/-- Witness for C4: model = "Kuga" against a schema without "model_ Kuga"
leaves the existing model_* slot at 0, and an unmatched fuel type leaves
the fuelType_* slot at 0. -/
theorem c4_witness :
    dictGet (encode ["model_ Fiesta", "transmission_Manual", "fuelType_Petrol"]
      ⟨2018, 30000, 150, 50, 2, "Kuga", "Manual", "Electric"⟩) "model_ Fiesta" = some 0 ∧
    dictGet (encode ["model_ Fiesta", "transmission_Manual", "fuelType_Petrol"]
      ⟨2018, 30000, 150, 50, 2, "Kuga", "Manual", "Electric"⟩) "fuelType_Petrol" = some 0 := by
  have h := c4_unmatched_noop ["model_ Fiesta", "transmission_Manual", "fuelType_Petrol"]
    ⟨2018, 30000, 150, 50, 2, "Kuga", "Manual", "Electric"⟩
  exact ⟨h.1 (by decide) "model_ Fiesta" (by decide) (by decide),
    h.2.2 (by decide) "fuelType_Petrol" (by decide) (by decide)⟩

/-! ## Claim C10 -/

/-- Claim C10: the "Focus" exact-match special case applies only when
"model_Focus" is in the schema; if the schema lacks "model_Focus" but
contains "model_ Focus" (leading space), the encoder falls through to
the general convention and sets the "model_ Focus" slot to 1. -/
theorem c10_focus_fallback (columns : List String) (r : RawInputs)
    (hm : r.model = "Focus") (h1 : "model_Focus" ∉ columns)
    (h2 : "model_ Focus" ∈ columns) :
    dictGet (encode columns r) "model_ Focus" = some 1 := by
  apply encode_model_one
  rw [hm]
  unfold modelSlotOf
  rw [if_neg (fun hc => h1 hc.2)]
  have he : "model_ " ++ "Focus" = "model_ Focus" := by decide
  rw [he, if_pos h2]

/-- Witness for C10 at a concrete schema containing only "model_ Focus". -/
theorem c10_witness :
    dictGet (encode ["model_ Focus"]
      ⟨2018, 30000, 150, 50, 2, "Focus", "Manual", "Petrol"⟩) "model_ Focus" = some 1 :=
  c10_focus_fallback ["model_ Focus"] ⟨2018, 30000, 150, 50, 2, "Focus", "Manual", "Petrol"⟩
    rfl (by decide) (by decide)

/-! ## Claim C9 -/

/-- Claim C9: the model is invoked on the single fully-encoded,
partially-scaled feature vector, and the returned price is exactly the
first element of the model's output. -/
theorem c9_first_output (columns : List String)
    (transform : (Fin 5 → ℚ) → Except String (Fin 5 → ℚ))
    (model : FeatureVec → Except String (List ℚ)) (r : RawInputs)
    (post : Fin 5 → ℚ) (p : ℚ) (rest : List ℚ)
    (h1 : transform (preNumeric (encode columns r)) = .ok post)
    (h2 : model (writeNumeric (encode columns r) post) = .ok (p :: rest)) :
    predictPipeline columns transform model r = .ok ⟨p⟩ := by
  simp [predictPipeline, h1, h2]

/-- Witness for C9: the end-to-end scenario of the spec with an identity
scaler and a constant model returns exactly the model's first output. -/
theorem c9_witness :
    predictPipeline ["year", "mileage", "tax", "mpg", "engineSize", "model_Focus",
      "transmission_Manual", "fuelType_Petrol"]
      (fun v => .ok v) (fun _ => .ok [12500])
      ⟨2018, 30000, 150, 50, 8 / 5, "Focus", "Manual", "Petrol"⟩ = .ok ⟨12500⟩ :=
  c9_first_output _ _ _ _ _ 12500 [] rfl rfl

/-! ## Claim C8 -/

/-- Claim C8: any error raised during scaling or model inference is
caught, wrapped as InferenceError carrying the underlying cause, and
surfaced as a request-scoped failure value; the handler is a total
function (no crash) and returns the loaded artifacts unchanged for
subsequent requests. -/
theorem c8_error_wrapped (a : Artifacts) (r : RawInputs) (e : String) :
    (a.transform (preNumeric (encode a.columns r)) = .error e →
      handleRequest a r = (.error (.InferenceError e), a)) ∧
    (∀ post, a.transform (preNumeric (encode a.columns r)) = .ok post →
      a.model (writeNumeric (encode a.columns r) post) = .error e →
      handleRequest a r = (.error (.InferenceError e), a)) := by
  constructor
  · intro h
    simp [handleRequest, predictPipeline, h]
  · intro post h1 h2
    simp [handleRequest, predictPipeline, h1, h2]

/-- Witness for C8: a failing scaler is surfaced as a wrapped error and
the artifacts come back unchanged. -/
theorem c8_witness :
    handleRequest ⟨["year"], fun _ => .error "boom", fun _ => .ok [1]⟩
      ⟨2018, 30000, 150, 50, 2, "Focus", "Manual", "Petrol"⟩ =
      (.error (.InferenceError "boom"),
        ⟨["year"], fun _ => .error "boom", fun _ => .ok [1]⟩) :=
  (c8_error_wrapped ⟨["year"], fun _ => .error "boom", fun _ => .ok [1]⟩
    ⟨2018, 30000, 150, 50, 2, "Focus", "Manual", "Petrol"⟩ "boom").1 rfl

/-! ## Claim C7 -/

/-- Claim C7: the encode-scale-predict pipeline is a pure function of the
raw inputs and the loaded artifacts: running a request leaves the
artifact state unchanged, and running the same request again against the
resulting state yields the identical result. -/
theorem c7_idempotent (a : Artifacts) (r : RawInputs) :
    (handleRequest a r).1 = (handleRequest (handleRequest a r).2 r).1 ∧
    (handleRequest (handleRequest a r).2 r).2 = a :=
  ⟨rfl, rfl⟩

/-! ## Claim C5 -/

/-- Claim C5: scaling changes exactly the five numeric slots — their
pre-scale values are the raw inputs in the fixed order, their post-scale
values are the scaler output components in that order — while every
non-numeric slot is unchanged by scaling and still holds exactly 0 or 1. -/
theorem c5_scaling_frame (columns : List String) (r : RawInputs)
    (transform : (Fin 5 → ℚ) → Except String (Fin 5 → ℚ)) (post : Fin 5 → ℚ)
    (h : transform (preNumeric (encode columns r)) = .ok post) :
    (preNumeric (encode columns r) 0 = r.year ∧
     preNumeric (encode columns r) 1 = r.mileage ∧
     preNumeric (encode columns r) 2 = r.tax ∧
     preNumeric (encode columns r) 3 = r.mpg ∧
     preNumeric (encode columns r) 4 = r.engineSize) ∧
    (dictGet (writeNumeric (encode columns r) post) "year" = some (post 0) ∧
     dictGet (writeNumeric (encode columns r) post) "mileage" = some (post 1) ∧
     dictGet (writeNumeric (encode columns r) post) "tax" = some (post 2) ∧
     dictGet (writeNumeric (encode columns r) post) "mpg" = some (post 3) ∧
     dictGet (writeNumeric (encode columns r) post) "engineSize" = some (post 4)) ∧
    (∀ n, n ∉ num_cols →
      dictGet (writeNumeric (encode columns r) post) n = dictGet (encode columns r) n) ∧
    (∀ n v, n ∉ num_cols → dictGet (encode columns r) n = some v → v = 0 ∨ v = 1) :=
  ⟨preNumeric_encode columns r, writeNumeric_slots _ post,
   fun n hn => writeNumeric_other _ post n hn,
   fun n v hn hv => encode_nonnum_01 columns r n v hn hv⟩

/-- Witness for C5 with a constant scaler: the numeric slot takes the
scaler output, the one-hot slot is untouched. -/
theorem c5_witness :
    dictGet (writeNumeric (encode
      ["year", "mileage", "tax", "mpg", "engineSize", "transmission_Manual"]
      ⟨2018, 30000, 150, 50, 2, "Kuga", "Manual", "Petrol"⟩) (fun _ => 7)) "year" = some 7 ∧
    dictGet (writeNumeric (encode
      ["year", "mileage", "tax", "mpg", "engineSize", "transmission_Manual"]
      ⟨2018, 30000, 150, 50, 2, "Kuga", "Manual", "Petrol"⟩) (fun _ => 7)) "transmission_Manual" =
      dictGet (encode ["year", "mileage", "tax", "mpg", "engineSize", "transmission_Manual"]
        ⟨2018, 30000, 150, 50, 2, "Kuga", "Manual", "Petrol"⟩) "transmission_Manual" := by
  have h := c5_scaling_frame
    ["year", "mileage", "tax", "mpg", "engineSize", "transmission_Manual"]
    ⟨2018, 30000, 150, 50, 2, "Kuga", "Manual", "Petrol"⟩
    (fun _ => .ok (fun _ => 7)) (fun _ => 7) rfl
  exact ⟨h.2.1.1, h.2.2.1 "transmission_Manual" (by decide)⟩

/-! ## Claim C6 -/

/-- A model-family slot holding 1 must be the activated model slot. -/
theorem model_one_slot (columns : List String) (r : RawInputs) (n : String)
    (hs : strStarts "model_" n = true)
    (h : dictGet (encode columns r) n = some 1) :
    modelSlotOf columns r.model = some n := by
  rcases encode_one_cases columns r n h with h' | h' | h' | h'
  · rw [h', strStarts_false "model_" "fuelType_" r.fuelType (by decide) (by decide)] at hs
    exact absurd hs (by decide)
  · rw [h', strStarts_false "model_" "transmission_" r.transmission (by decide) (by decide)] at hs
    exact absurd hs (by decide)
  · exact h'
  · rw [strStarts_num_false "model_" n (Or.inl rfl) h'] at hs
    exact absurd hs (by decide)

/-- A transmission-family slot holding 1 must be the activated
transmission slot. -/
theorem trans_one_slot (columns : List String) (r : RawInputs) (n : String)
    (hs : strStarts "transmission_" n = true)
    (h : dictGet (encode columns r) n = some 1) :
    n = "transmission_" ++ r.transmission := by
  rcases encode_one_cases columns r n h with h' | h' | h' | h'
  · rw [h', strStarts_false "transmission_" "fuelType_" r.fuelType (by decide) (by decide)] at hs
    exact absurd hs (by decide)
  · exact h'
  · rcases modelSlotOf_cases columns r.model n h' with h'' | h''
    · rw [h''] at hs; exact absurd hs (by decide)
    · rw [h'', strStarts_false "transmission_" "model_ " r.model (by decide) (by decide)] at hs
      exact absurd hs (by decide)
  · rw [strStarts_num_false "transmission_" n (Or.inr (Or.inl rfl)) h'] at hs
    exact absurd hs (by decide)

/-- A fuelType-family slot holding 1 must be the activated fuel slot. -/
theorem fuel_one_slot (columns : List String) (r : RawInputs) (n : String)
    (hs : strStarts "fuelType_" n = true)
    (h : dictGet (encode columns r) n = some 1) :
    n = "fuelType_" ++ r.fuelType := by
  rcases encode_one_cases columns r n h with h' | h' | h' | h'
  · exact h'
  · rw [h', strStarts_false "fuelType_" "transmission_" r.transmission (by decide) (by decide)] at hs
    exact absurd hs (by decide)
  · rcases modelSlotOf_cases columns r.model n h' with h'' | h''
    · rw [h''] at hs; exact absurd hs (by decide)
    · rw [h'', strStarts_false "fuelType_" "model_ " r.model (by decide) (by decide)] at hs
      exact absurd hs (by decide)
  · rw [strStarts_num_false "fuelType_" n (Or.inr (Or.inr rfl)) h'] at hs
    exact absurd hs (by decide)

/-- Claim C6: in the encoded feature vector every slot is a raw numeric
field value or 0 or 1, and each categorical family (model_*,
transmission_*, fuelType_*) has at most one slot equal to 1. -/
theorem c6_onehot_invariant (columns : List String) (r : RawInputs) :
    (∀ n v, dictGet (encode columns r) n = some v →
      v = r.year ∨ v = r.mileage ∨ v = r.tax ∨ v = r.mpg ∨ v = r.engineSize ∨
      v = 0 ∨ v = 1) ∧
    (∀ fam, (fam = "model_" ∨ fam = "transmission_" ∨ fam = "fuelType_") →
      ∀ n₁ n₂, strStarts fam n₁ = true → strStarts fam n₂ = true →
        dictGet (encode columns r) n₁ = some 1 →
        dictGet (encode columns r) n₂ = some 1 → n₁ = n₂) := by
  constructor
  · intro n v h
    rw [dictGet_encode] at h
    split at h
    next => exact Or.inr (Or.inr (Or.inr (Or.inr (Or.inr (Or.inr (Option.some_inj.mp h).symm)))))
    next =>
      split at h
      next => exact Or.inr (Or.inr (Or.inr (Or.inr (Or.inr (Or.inr (Option.some_inj.mp h).symm)))))
      next =>
        split at h
        next => exact Or.inr (Or.inr (Or.inr (Or.inr (Or.inr (Or.inr (Option.some_inj.mp h).symm)))))
        next =>
          split at h
          next => exact Or.inr (Or.inr (Or.inr (Or.inr (Or.inl (Option.some_inj.mp h).symm))))
          next =>
            split at h
            next => exact Or.inr (Or.inr (Or.inr (Or.inl (Option.some_inj.mp h).symm)))
            next =>
              split at h
              next => exact Or.inr (Or.inr (Or.inl (Option.some_inj.mp h).symm))
              next =>
                split at h
                next => exact Or.inr (Or.inl (Option.some_inj.mp h).symm)
                next =>
                  split at h
                  next => exact Or.inl (Option.some_inj.mp h).symm
                  next =>
                    split at h
                    next => exact Or.inr (Or.inr (Or.inr (Or.inr (Or.inr (Or.inl (Option.some_inj.mp h).symm)))))
                    next => cases h
  · intro fam hfam n₁ n₂ hs₁ hs₂ h₁ h₂
    rcases hfam with rfl | rfl | rfl
    · exact Option.some_inj.mp
        ((model_one_slot columns r n₁ hs₁ h₁).symm.trans (model_one_slot columns r n₂ hs₂ h₂))
    · exact (trans_one_slot columns r n₁ hs₁ h₁).trans (trans_one_slot columns r n₂ hs₂ h₂).symm
    · exact (fuel_one_slot columns r n₁ hs₁ h₁).trans (fuel_one_slot columns r n₂ hs₂ h₂).symm

/-- Witness for C6 at a concrete input: the value classification applied
to the "year" slot, and family uniqueness applied to the model family. -/
theorem c6_witness :
    ((2018 : ℚ) = 2018 ∨ (2018 : ℚ) = 30000 ∨ (2018 : ℚ) = 150 ∨ (2018 : ℚ) = 50 ∨
      (2018 : ℚ) = 2 ∨ (2018 : ℚ) = 0 ∨ (2018 : ℚ) = 1) ∧
    "model_Focus" = "model_Focus" := by
  have h := c6_onehot_invariant ["year", "model_Focus", "model_ Fiesta"]
    ⟨2018, 30000, 150, 50, 2, "Focus", "Manual", "Petrol"⟩
  exact ⟨h.1 "year" 2018 (by decide),
    h.2 "model_" (Or.inl rfl) "model_Focus" "model_Focus" (by decide) (by decide)
      (by decide) (by decide)⟩

/-! ## Claim C1 (corrected) -/

/-- Counterexample to C1 as stated: with "year" absent from the schema,
the pipeline does not fail at all — it silently succeeds (no
SchemaMismatchError exists anywhere in the code), and the encoder has
inserted the feature name "year", a name outside the schema, into the
vector. -/
theorem c1_counterexample :
    predictPipeline ["mileage", "tax", "mpg", "engineSize"]
      (fun v => .ok v) (fun _ => .ok [9000])
      ⟨2018, 30000, 150, 50, 2, "Focus", "Manual", "Petrol"⟩ = .ok ⟨9000⟩ ∧
    dictGet (encode ["mileage", "tax", "mpg", "engineSize"]
      ⟨2018, 30000, 150, 50, 2, "Focus", "Manual", "Petrol"⟩) "year" = some 2018 ∧
    "year" ∉ ["mileage", "tax", "mpg", "engineSize"] :=
  ⟨rfl, by decide, by decide⟩

/-- Claim C1 (amended): when one of the five numeric feature names is
absent from the loaded schema, the pipeline does not fail with a schema
error — the plain dict assignment silently inserts the missing name
(introducing a feature name outside the schema), all five numeric slots
hold the raw values, and execution proceeds normally, succeeding
whenever the scaler and model calls succeed. -/
theorem c1_amended (columns : List String)
    (transform : (Fin 5 → ℚ) → Except String (Fin 5 → ℚ))
    (model : FeatureVec → Except String (List ℚ)) (r : RawInputs)
    (c : String) (hc : c ∈ num_cols) (habs : c ∉ columns) :
    (dictGet (encode columns r) "year" = some r.year ∧
     dictGet (encode columns r) "mileage" = some r.mileage ∧
     dictGet (encode columns r) "tax" = some r.tax ∧
     dictGet (encode columns r) "mpg" = some r.mpg ∧
     dictGet (encode columns r) "engineSize" = some r.engineSize) ∧
    (∀ post p rest,
      transform (preNumeric (encode columns r)) = .ok post →
      model (writeNumeric (encode columns r) post) = .ok (p :: rest) →
      predictPipeline columns transform model r = .ok ⟨p⟩) := by
  refine ⟨encode_numeric_slots columns r, ?_⟩
  intro post p rest h1 h2
  simp [predictPipeline, h1, h2]

/-- Witness for C1 (amended): schema missing "year"; the "year" slot is
nevertheless populated and the pipeline returns the model output. -/
theorem c1_witness :
    dictGet (encode ["mileage", "tax", "mpg", "engineSize"]
      ⟨2019, 41000, 145, 60, 1, "Kuga", "Manual", "Diesel"⟩) "year" = some 2019 ∧
    predictPipeline ["mileage", "tax", "mpg", "engineSize"]
      (fun v => .ok v) (fun _ => .ok [7])
      ⟨2019, 41000, 145, 60, 1, "Kuga", "Manual", "Diesel"⟩ = .ok ⟨7⟩ := by
  have h := c1_amended ["mileage", "tax", "mpg", "engineSize"]
    (fun v => .ok v) (fun _ => .ok [7])
    ⟨2019, 41000, 145, 60, 1, "Kuga", "Manual", "Diesel"⟩ "year" (by decide) (by decide)
  exact ⟨h.1.1, h.2 _ 7 [] rfl rfl⟩

/-! ## Claim C3 (corrected) -/

/-- Counterexample to C3 as stated: with a schema containing the five
numeric names plus "transmission_Manual", and transmission = "Manual",
the pre-scale feature vector has a non-numeric slot equal to 1, not 0. -/
theorem c3_counterexample :
    ("year" ∈ ["year", "mileage", "tax", "mpg", "engineSize", "transmission_Manual"] ∧
     "mileage" ∈ ["year", "mileage", "tax", "mpg", "engineSize", "transmission_Manual"] ∧
     "tax" ∈ ["year", "mileage", "tax", "mpg", "engineSize", "transmission_Manual"] ∧
     "mpg" ∈ ["year", "mileage", "tax", "mpg", "engineSize", "transmission_Manual"] ∧
     "engineSize" ∈ ["year", "mileage", "tax", "mpg", "engineSize", "transmission_Manual"]) ∧
    "transmission_Manual" ∉ num_cols ∧
    dictGet (encode ["year", "mileage", "tax", "mpg", "engineSize", "transmission_Manual"]
      ⟨2018, 30000, 150, 50, 2, "Focus", "Manual", "Petrol"⟩) "transmission_Manual" = some 1 ∧
    (1 : ℚ) ≠ 0 :=
  ⟨by decide, by decide, by decide, by norm_num⟩

/-- Claim C3 (amended): given a schema containing the five numeric names,
the pre-scale feature vector has those five slots populated with the raw
input values, and every other slot is exactly 0 except the activated
one-hot slots (at most one per categorical family), which are 1. -/
theorem c3_amended (columns : List String) (r : RawInputs)
    (h : ∀ c ∈ num_cols, c ∈ columns) :
    (dictGet (encode columns r) "year" = some r.year ∧
     dictGet (encode columns r) "mileage" = some r.mileage ∧
     dictGet (encode columns r) "tax" = some r.tax ∧
     dictGet (encode columns r) "mpg" = some r.mpg ∧
     dictGet (encode columns r) "engineSize" = some r.engineSize) ∧
    (∀ n, n ∈ columns → n ∉ num_cols →
      ((modelSlotOf columns r.model = some n ∨
        n = "transmission_" ++ r.transmission ∨
        n = "fuelType_" ++ r.fuelType) →
        dictGet (encode columns r) n = some 1) ∧
      (¬ (modelSlotOf columns r.model = some n ∨
          n = "transmission_" ++ r.transmission ∨
          n = "fuelType_" ++ r.fuelType) →
        dictGet (encode columns r) n = some 0)) := by
  refine ⟨encode_numeric_slots columns r, ?_⟩
  intro n hn h5
  constructor
  · intro hact
    rcases hact with hm | ht | hf
    · exact encode_model_one columns r n hm
    · subst ht
      exact encode_trans_one columns r hn
    · subst hf
      exact encode_fuel_one columns r hn
  · intro hnact
    exact encode_zero columns r n hn
      (fun hc => hnact (Or.inr (Or.inr hc.2)))
      (fun hc => hnact (Or.inr (Or.inl hc.2)))
      (fun hc => hnact (Or.inl hc)) h5

/-- Witness for C3 (amended): concrete schema with all five numeric names
and two model_* columns; the numeric slot holds the raw value, the
activated model slot holds 1, and the non-activated one holds 0. -/
theorem c3_witness :
    dictGet (encode
      ["year", "mileage", "tax", "mpg", "engineSize", "model_ Kuga", "model_ Fiesta"]
      ⟨2018, 30000, 150, 50, 2, "Kuga", "Manual", "Petrol"⟩) "year" = some 2018 ∧
    dictGet (encode
      ["year", "mileage", "tax", "mpg", "engineSize", "model_ Kuga", "model_ Fiesta"]
      ⟨2018, 30000, 150, 50, 2, "Kuga", "Manual", "Petrol"⟩) "model_ Kuga" = some 1 ∧
    dictGet (encode
      ["year", "mileage", "tax", "mpg", "engineSize", "model_ Kuga", "model_ Fiesta"]
      ⟨2018, 30000, 150, 50, 2, "Kuga", "Manual", "Petrol"⟩) "model_ Fiesta" = some 0 := by
  have h := c3_amended
    ["year", "mileage", "tax", "mpg", "engineSize", "model_ Kuga", "model_ Fiesta"]
    ⟨2018, 30000, 150, 50, 2, "Kuga", "Manual", "Petrol"⟩ (by decide)
  exact ⟨h.1.1,
    (h.2 "model_ Kuga" (by decide) (by decide)).1 (Or.inl (by decide)),
    (h.2 "model_ Fiesta" (by decide) (by decide)).2 (by decide)⟩
